import Mathlib

/-!
Verification development for the OpenFE absolute binding / solvation
free-energy protocols (`openfe.protocols.openmm_afe.equil_binding_afe_method`
and `openfe.protocols.openmm_afe.equil_solvation_afe_method`).

Python code is shallowly embedded: fallible code is modelled with
`Except PyErr`, dictionaries with association lists preserving insertion
order (Python dict semantics), and `openff.units` quantities as a magnitude
together with a positive unit scale factor.
-/

namespace OpenFE

/-- Python exception model: only the constructors the embedded code can
actually raise are represented.  The `String` arguments identify which
source-level raise site produced the error. -/
inductive PyErr where
  | valueError (tag : String)
  | indexError
  | keyError (key : String)
  | typeError (tag : String)
  | notImplementedError (tag : String)
  deriving DecidableEq, Repr

/-! ## Lambda schedule validation (`AbsoluteBindingProtocol._validate_lambda_schedule`) -/

/-- `LambdaSettings` (from `equil_afe_settings`): three per-component lambda
arrays.  Lambda values are embedded as rationals. -/
structure LambdaSettings where
  lambda_elec : List ℚ
  lambda_vdw : List ℚ
  lambda_restraints : List ℚ
  deriving DecidableEq, Repr

/-- `MultiStateSimulationSettings`: only the field read by
`_validate_lambda_schedule` is embedded. -/
structure MultiStateSimulationSettings where
  n_replicas : Nat
  deriving DecidableEq, Repr

/-- Structured rendering of the three `ValueError` messages that
`_validate_lambda_schedule` can raise; each constructor carries exactly the
data interpolated into the corresponding message string in the source. -/
inductive ScheduleError where
  | lengthMismatch (nElec nVdw nRestraints : Nat)
  | replicaMismatch (nReplicas nWindows : Nat)
  | nakedCharge (idx : Nat) (elec vdw : ℚ)
  deriving DecidableEq, Repr

/-- The naked-charge scan of `_validate_lambda_schedule`:
`for inx, lam in enumerate(lambda_elec): if lam < 1 and lambda_vdw[inx] == 1: raise`.
Returns the first offending index (with offset `k`) together with the two
lambda values at that index.  The second pattern (electrostatics left over
after sterics ran out) is unreachable in the validator because the equal
length check runs first. -/
def findNaked : List ℚ → List ℚ → Nat → Option (Nat × ℚ × ℚ)
  | [], _, _ => none
  | _ :: _, [], _ => none
  | e :: es, v :: vs, k =>
      if e < 1 ∧ v = 1 then some (k, e, v) else findNaked es vs (k + 1)

/-- `AbsoluteBindingProtocol._validate_lambda_schedule`: checks equal window
counts across the elec/vdw/restraints components, replica count equal to the
window count, and the absence of naked-charge states. -/
def validate_lambda_schedule (ls : LambdaSettings)
    (ss : MultiStateSimulationSettings) : Except ScheduleError Unit :=
  if ¬ (ls.lambda_elec.length = ls.lambda_vdw.length ∧
        ls.lambda_restraints.length = ls.lambda_vdw.length) then
    .error (.lengthMismatch ls.lambda_elec.length ls.lambda_vdw.length
      ls.lambda_restraints.length)
  else if ss.n_replicas ≠ ls.lambda_vdw.length then
    .error (.replicaMismatch ss.n_replicas ls.lambda_vdw.length)
  else
    match findNaked ls.lambda_elec ls.lambda_vdw 0 with
    | some (i, e, v) => .error (.nakedCharge i e v)
    | none => .ok ()

lemma findNaked_none_iff (es vs : List ℚ) (k : Nat) :
    findNaked es vs k = none ↔
      ∀ i, i < es.length → ¬ (es.getD i 1 < 1 ∧ vs.getD i 0 = 1) := by
  induction es generalizing vs k with
  | nil => simp [findNaked]
  | cons e es ih =>
    cases vs with
    | nil =>
      simp only [findNaked, true_iff]
      intro i _ hcon
      rcases i with _ | j
      · exact absurd hcon.2 (by simp [List.getD])
      · exact absurd hcon.2 (by simp [List.getD])
    | cons v vs =>
      show (if e < 1 ∧ v = 1 then some (k, e, v) else findNaked es vs (k + 1))
          = none ↔ _
      by_cases h : e < 1 ∧ v = 1
      · rw [if_pos h]
        simp only [reduceCtorEq, false_iff, not_forall]
        refine ⟨0, ⟨Nat.succ_pos _, ?_⟩⟩
        simpa [List.getD] using h
      · rw [if_neg h, ih vs (k + 1)]
        constructor
        · intro hall i hi
          rcases i with _ | j
          · simpa [List.getD] using h
          · simpa [List.getD] using hall j (Nat.lt_of_succ_lt_succ hi)
        · intro hall i hi
          simpa [List.getD] using hall (i + 1) (Nat.succ_lt_succ hi)

lemma findNaked_some (es vs : List ℚ) (k : Nat) (i : Nat) (e v : ℚ)
    (h : findNaked es vs k = some (i, e, v)) :
    k ≤ i ∧ i - k < es.length ∧ es.getD (i - k) 1 = e ∧
      vs.getD (i - k) 0 = v ∧ e < 1 ∧ v = 1 := by
  induction es generalizing vs k with
  | nil => simp [findNaked] at h
  | cons e0 es ih =>
    cases vs with
    | nil => simp [findNaked] at h
    | cons v0 vs =>
      rw [show findNaked (e0 :: es) (v0 :: vs) k
          = (if e0 < 1 ∧ v0 = 1 then some (k, e0, v0)
             else findNaked es vs (k + 1)) from rfl] at h
      by_cases hc : e0 < 1 ∧ v0 = 1
      · rw [if_pos hc] at h
        have h1 : k = i ∧ e0 = e ∧ v0 = v := by
          have := Option.some.inj h
          refine ⟨congrArg Prod.fst this, ?_, ?_⟩
          · exact congrArg (fun p => p.2.1) this
          · exact congrArg (fun p => p.2.2) this
        obtain ⟨hk1, hk2, hk3⟩ := h1
        subst hk1; subst hk2; subst hk3
        refine ⟨Nat.le_refl _, by simp, ?_, ?_, hc.1, hc.2⟩
        · simp [List.getD]
        · simp [List.getD]
      · rw [if_neg hc] at h
        obtain ⟨hk, hlt, hes, hvs, he, hv⟩ := ih vs (k + 1) h
        have hsub : i - k = (i - (k + 1)) + 1 := by omega
        refine ⟨by omega, by rw [hsub]; exact Nat.succ_lt_succ hlt, ?_, ?_, he, hv⟩
        · rw [hsub]; simpa [List.getD] using hes
        · rw [hsub]; simpa [List.getD] using hvs

/-- C2: `_validate_lambda_schedule` raises `ValueError` exactly when (1) the
three lambda arrays do not share one length (the error citing the three
actual lengths), (2) `n_replicas` differs from the number of lambda windows,
or (3) some index pairs `lambda_elec < 1` with `lambda_vdw == 1` (the error
listing the offending index and values); it returns normally otherwise. -/
theorem validate_lambda_schedule_spec (ls : LambdaSettings)
    (ss : MultiStateSimulationSettings) :
    (validate_lambda_schedule ls ss = .ok () ↔
      (ls.lambda_elec.length = ls.lambda_vdw.length ∧
       ls.lambda_restraints.length = ls.lambda_vdw.length ∧
       ss.n_replicas = ls.lambda_vdw.length ∧
       ∀ i, i < ls.lambda_elec.length →
         ¬ (ls.lambda_elec.getD i 1 < 1 ∧ ls.lambda_vdw.getD i 0 = 1))) ∧
    (∀ a b c, validate_lambda_schedule ls ss = .error (.lengthMismatch a b c) →
       a = ls.lambda_elec.length ∧ b = ls.lambda_vdw.length ∧
       c = ls.lambda_restraints.length) ∧
    (∀ a b, validate_lambda_schedule ls ss = .error (.replicaMismatch a b) →
       a = ss.n_replicas ∧ b = ls.lambda_vdw.length) ∧
    (∀ i e v, validate_lambda_schedule ls ss = .error (.nakedCharge i e v) →
       i < ls.lambda_elec.length ∧ ls.lambda_elec.getD i 1 = e ∧
       ls.lambda_vdw.getD i 0 = v ∧ e < 1 ∧ v = 1) := by
  by_cases hlen : ls.lambda_elec.length = ls.lambda_vdw.length ∧
      ls.lambda_restraints.length = ls.lambda_vdw.length
  · by_cases hrep : ss.n_replicas = ls.lambda_vdw.length
    · rcases hnk : findNaked ls.lambda_elec ls.lambda_vdw 0 with _ | ⟨i, e, v⟩
      · have hval : validate_lambda_schedule ls ss = .ok () := by
          unfold validate_lambda_schedule
          rw [if_neg (not_not_intro hlen), if_neg (not_not_intro hrep), hnk]
        refine ⟨?_, ?_, ?_, ?_⟩
        · rw [hval]
          exact ⟨fun _ => ⟨hlen.1, hlen.2, hrep,
            (findNaked_none_iff _ _ 0).mp hnk⟩, fun _ => rfl⟩
        · intro a b c heq; rw [hval] at heq; exact absurd heq (by simp)
        · intro a b heq; rw [hval] at heq; exact absurd heq (by simp)
        · intro i0 e0 v0 heq; rw [hval] at heq; exact absurd heq (by simp)
      · have hval : validate_lambda_schedule ls ss
            = .error (.nakedCharge i e v) := by
          unfold validate_lambda_schedule
          rw [if_neg (not_not_intro hlen), if_neg (not_not_intro hrep), hnk]
        obtain ⟨-, hlt, hes, hvs, he, hv⟩ := findNaked_some _ _ 0 i e v hnk
        rw [Nat.sub_zero] at hlt hes hvs
        refine ⟨?_, ?_, ?_, ?_⟩
        · rw [hval]
          constructor
          · intro heq; exact absurd heq (by simp)
          · rintro ⟨-, -, -, hall⟩
            exact absurd ⟨hes.trans_lt he, hvs.trans hv⟩ (hall i hlt)
        · intro a b c heq; rw [hval] at heq; exact absurd heq (by simp)
        · intro a b heq; rw [hval] at heq; exact absurd heq (by simp)
        · intro i0 e0 v0 heq
          rw [hval] at heq
          have h3 : i = i0 ∧ e = e0 ∧ v = v0 := by simpa using heq
          obtain ⟨h4, h5, h6⟩ := h3
          subst h4; subst h5; subst h6
          exact ⟨hlt, hes, hvs, he, hv⟩
    · have hval : validate_lambda_schedule ls ss
          = .error (.replicaMismatch ss.n_replicas ls.lambda_vdw.length) := by
        unfold validate_lambda_schedule
        rw [if_neg (not_not_intro hlen), if_pos hrep]
      refine ⟨?_, ?_, ?_, ?_⟩
      · rw [hval]
        constructor
        · intro heq; exact absurd heq (by simp)
        · rintro ⟨-, -, h3, -⟩; exact absurd h3 hrep
      · intro a b c heq; rw [hval] at heq; exact absurd heq (by simp)
      · intro a b heq
        rw [hval] at heq
        have h3 : ss.n_replicas = a ∧ ls.lambda_vdw.length = b := by
          simpa using heq
        exact ⟨h3.1.symm, h3.2.symm⟩
      · intro i0 e0 v0 heq; rw [hval] at heq; exact absurd heq (by simp)
  · have hval : validate_lambda_schedule ls ss
        = .error (.lengthMismatch ls.lambda_elec.length ls.lambda_vdw.length
            ls.lambda_restraints.length) := by
      unfold validate_lambda_schedule
      rw [if_pos hlen]
    refine ⟨?_, ?_, ?_, ?_⟩
    · rw [hval]
      constructor
      · intro heq; exact absurd heq (by simp)
      · rintro ⟨h1, h2, -, -⟩; exact absurd ⟨h1, h2⟩ hlen
    · intro a b c heq
      rw [hval] at heq
      have h3 : ls.lambda_elec.length = a ∧ ls.lambda_vdw.length = b ∧
          ls.lambda_restraints.length = c := by simpa using heq
      exact ⟨h3.1.symm, h3.2.1.symm, h3.2.2.symm⟩
    · intro a b heq; rw [hval] at heq; exact absurd heq (by simp)
    · intro i0 e0 v0 heq; rw [hval] at heq; exact absurd heq (by simp)

/-- Concrete instantiation of `validate_lambda_schedule_spec`: a valid
three-window schedule passes validation. -/
theorem validate_lambda_schedule_spec_witness :
    validate_lambda_schedule
      { lambda_elec := [1, 1, 0], lambda_vdw := [1, 0, 0],
        lambda_restraints := [0, 0, 0] }
      { n_replicas := 3 } = .ok () :=
  (validate_lambda_schedule_spec
    { lambda_elec := [1, 1, 0], lambda_vdw := [1, 0, 0],
      lambda_restraints := [0, 0, 0] }
    { n_replicas := 3 }).1.mpr (by decide)

/-! ## Analytic lambda schedule (`BaseAbsoluteTransformUnit._get_lambda_schedule`) -/

/-- `numpy.linspace(a, b, n)`: `n` evenly spaced rationals from `a` to `b`
inclusive (`[a]` for `n = 1`, `[]` for `n = 0`). -/
def linspace (a b : ℚ) (n : Nat) : List ℚ :=
  if n = 0 then []
  else if n = 1 then [a]
  else (List.range n).map (fun (i : Nat) => a + (b - a) * (i : ℚ) / ((n : ℚ) - 1))

/-- `AlchemicalSettings` (from `equil_afe_settings`): the two window counts
read by `_get_lambda_schedule`. -/
structure AlchemicalSettings where
  lambda_elec_windows : Nat
  lambda_vdw_windows : Nat
  deriving DecidableEq, Repr

/-- `AlchemicalSamplerSettings`: only `n_replicas` is read by
`_get_lambda_schedule`. -/
structure AlchemicalSamplerSettings where
  n_replicas : Nat
  deriving DecidableEq, Repr

/-- `lambdas['lambda_electrostatics']` of `_get_lambda_schedule`:
`np.concatenate([np.linspace(1, 0, n_elec), np.linspace(0, 0, n_vdw)[1:]])`
with `n_vdw = lambda_vdw_windows + 1`. -/
def elecSchedule (ne wv : Nat) : List ℚ :=
  linspace 1 0 ne ++ (linspace 0 0 (wv + 1)).drop 1

/-- `lambdas['lambda_sterics']` of `_get_lambda_schedule`:
`np.concatenate([np.linspace(1, 1, n_elec), np.linspace(1, 0, n_vdw)[1:]])`. -/
def sterSchedule (ne wv : Nat) : List ℚ :=
  linspace 1 1 ne ++ (linspace 1 0 (wv + 1)).drop 1

/-- `BaseAbsoluteTransformUnit._get_lambda_schedule`: the returned pair is
(`lambdas['lambda_electrostatics']`, `lambdas['lambda_sterics']`). -/
def get_lambda_schedule (alchemical : AlchemicalSettings)
    (sampler : AlchemicalSamplerSettings) : Except PyErr (List ℚ × List ℚ) :=
  let elec := elecSchedule alchemical.lambda_elec_windows
    alchemical.lambda_vdw_windows
  let ster := sterSchedule alchemical.lambda_elec_windows
    alchemical.lambda_vdw_windows
  if sampler.n_replicas ≠ ster.length then
    .error (.valueError "replicas does not equal the number of lambda windows")
  else
    .ok (elec, ster)

lemma linspace_length (a b : ℚ) (n : Nat) : (linspace a b n).length = n := by
  unfold linspace
  rcases n with _ | _ | n <;> simp

lemma linspace_const (a : ℚ) (n : Nat) : linspace a a n = List.replicate n a := by
  unfold linspace
  rcases n with _ | _ | n
  · simp
  · simp [List.replicate]
  · rw [if_neg (by omega), if_neg (by omega), List.eq_replicate_iff]
    constructor
    · simp
    · intro x hx
      simp only [List.mem_map, List.mem_range] at hx
      obtain ⟨i, -, hi⟩ := hx
      simp [← hi]

lemma linspace_getD (a b : ℚ) {n i : Nat} (h1 : 2 ≤ n) (h2 : i < n) (d : ℚ) :
    (linspace a b n).getD i d = a + (b - a) * (i : ℚ) / ((n : ℚ) - 1) := by
  unfold linspace
  rw [if_neg (by omega), if_neg (by omega), List.getD_eq_getElem?_getD,
    List.getElem?_map, List.getElem?_range h2]
  rfl

lemma linspace_head (a b : ℚ) {n : Nat} (h : 1 ≤ n) (d : ℚ) :
    (linspace a b n).getD 0 d = a := by
  rcases Nat.lt_or_ge n 2 with h2 | h2
  · have : n = 1 := by omega
    subst this
    simp [linspace]
  · rw [linspace_getD a b h2 (by omega) d]
    simp

lemma linspace_last (a b : ℚ) {n : Nat} (h : 2 ≤ n) (d : ℚ) :
    (linspace a b n).getD (n - 1) d = b := by
  rw [linspace_getD a b h (by omega) d]
  have hne : ((n : ℚ) - 1) ≠ 0 := by
    have : (2 : ℚ) ≤ (n : ℚ) := by exact_mod_cast h
    linarith
  have hcast : ((n - 1 : Nat) : ℚ) = (n : ℚ) - 1 := by
    rw [Nat.cast_sub (by omega), Nat.cast_one]
  rw [hcast, mul_div_assoc, div_self hne]
  ring

lemma linspace_mem_bounds {a b x : ℚ} (hba : b ≤ a) {n : Nat}
    (hx : x ∈ linspace a b n) : b ≤ x ∧ x ≤ a := by
  unfold linspace at hx
  rcases Nat.lt_or_ge n 2 with h2 | h2
  · rcases n with _ | _ | n
    · simp at hx
    · simp at hx
      exact ⟨hx ▸ hba, hx ▸ le_refl a⟩
    · omega
  · rw [if_neg (by omega), if_neg (by omega)] at hx
    simp only [List.mem_map, List.mem_range] at hx
    obtain ⟨i, hi, rfl⟩ := hx
    have hm : (0 : ℚ) < (n : ℚ) - 1 := by
      have : (2 : ℚ) ≤ (n : ℚ) := by exact_mod_cast h2
      linarith
    have ht0 : (0 : ℚ) ≤ (i : ℚ) / ((n : ℚ) - 1) :=
      div_nonneg (Nat.cast_nonneg i) (le_of_lt hm)
    have ht1 : (i : ℚ) / ((n : ℚ) - 1) ≤ 1 := by
      rw [div_le_one hm]
      have hi1 : i ≤ n - 1 := by omega
      have hc : ((i : ℚ)) ≤ ((n - 1 : Nat) : ℚ) := by exact_mod_cast hi1
      have hcast : ((n - 1 : Nat) : ℚ) = (n : ℚ) - 1 := by
        rw [Nat.cast_sub (by omega), Nat.cast_one]
      linarith [hcast ▸ hc]
    rw [mul_div_assoc]
    constructor
    · nlinarith [mul_nonneg (by linarith : (0:ℚ) ≤ a - b)
        (by linarith : (0:ℚ) ≤ 1 - (i : ℚ) / ((n : ℚ) - 1))]
    · nlinarith [mul_nonneg (by linarith : (0:ℚ) ≤ a - b) ht0]

lemma linspace_chain (a b : ℚ) (hba : b ≤ a) (n : Nat) :
    List.Chain' (fun x y => y ≤ x) (linspace a b n) := by
  unfold linspace
  rcases n with _ | _ | n
  · simp
  · simp
  · rw [if_neg (by omega), if_neg (by omega), List.chain'_map,
      show n + 1 + 1 = (n + 1) + 1 from rfl, List.chain'_range_succ]
    intro i _
    have hm : (0 : ℚ) < ((n + 1 + 1 : Nat) : ℚ) - 1 := by push_cast; linarith
    have hstep : (b - a) / (((n + 1 + 1 : Nat) : ℚ) - 1) ≤ 0 :=
      div_nonpos_iff.mpr (Or.inr ⟨by linarith, le_of_lt hm⟩)
    have hexp : a + (b - a) * ((i + 1 : Nat) : ℚ) / (((n + 1 + 1 : Nat) : ℚ) - 1)
        = a + (b - a) * ((i : Nat) : ℚ) / (((n + 1 + 1 : Nat) : ℚ) - 1)
          + (b - a) / (((n + 1 + 1 : Nat) : ℚ) - 1) := by
      push_cast
      ring
    rw [hexp]
    linarith

lemma chain'_replicate {r : ℚ → ℚ → Prop} (n : Nat) (a : ℚ) (h : r a a) :
    List.Chain' r (List.replicate n a) := by
  induction n with
  | zero => simp
  | succ m ih =>
    rcases m with _ | k
    · simp
    · have hrep : List.replicate (k + 1 + 1) a = a :: a :: List.replicate k a := by
        simp [List.replicate_succ]
      rw [hrep]
      refine List.chain'_cons.mpr ⟨h, ?_⟩
      have hrep2 : (a :: List.replicate k a) = List.replicate (k + 1) a := by
        simp [List.replicate_succ]
      rw [hrep2]
      exact ih

lemma elecSchedule_eq (ne wv : Nat) :
    elecSchedule ne wv = linspace 1 0 ne ++ List.replicate wv 0 := by
  unfold elecSchedule
  rw [linspace_const, List.replicate_succ]
  simp

lemma elecSchedule_length (ne wv : Nat) :
    (elecSchedule ne wv).length = ne + wv := by
  rw [elecSchedule_eq]
  simp [linspace_length]

lemma sterSchedule_length (ne wv : Nat) :
    (sterSchedule ne wv).length = ne + wv := by
  unfold sterSchedule
  simp [linspace_length]

lemma sterTail_getD (wv j : Nat) (d : ℚ) :
    ((linspace 1 0 (wv + 1)).drop 1).getD j d = (linspace 1 0 (wv + 1)).getD (1 + j) d := by
  rw [List.getD_eq_getElem?_getD, List.getElem?_drop, List.getD_eq_getElem?_getD]

lemma elecSchedule_chain (ne wv : Nat) :
    List.Chain' (fun x y => y ≤ x) (elecSchedule ne wv) := by
  rw [elecSchedule_eq]
  refine List.Chain'.append (linspace_chain 1 0 (by norm_num) ne)
    (chain'_replicate wv 0 (le_refl 0)) ?_
  intro x hx y hy
  have hxm : x ∈ linspace 1 0 ne := List.mem_of_mem_getLast? hx
  have hxb := linspace_mem_bounds (by norm_num : (0:ℚ) ≤ 1) hxm
  have hy0 : y = 0 := by
    rcases wv with _ | k
    · simp at hy
    · rw [List.head?_replicate, if_neg (by omega)] at hy
      exact (by simpa using hy : (0:ℚ) = y).symm
  rw [hy0]
  exact hxb.1

lemma sterSchedule_chain (ne wv : Nat) :
    List.Chain' (fun x y => y ≤ x) (sterSchedule ne wv) := by
  unfold sterSchedule
  rw [linspace_const]
  refine List.Chain'.append (chain'_replicate ne 1 (le_refl 1)) ?_ ?_
  · have h := (linspace_chain 1 0 (by norm_num) (wv + 1)).tail
    rwa [← List.drop_one] at h
  · intro x hx y hy
    have hx1 : x = 1 := by
      have hxm : x ∈ List.replicate ne 1 := List.mem_of_mem_getLast? hx
      exact (List.mem_replicate.mp hxm).2
    have hym : y ∈ linspace 1 0 (wv + 1) := by
      have : y ∈ (linspace 1 0 (wv + 1)).drop 1 := List.mem_of_mem_head? hy
      exact List.mem_of_mem_drop this
    have := linspace_mem_bounds (by norm_num : (0:ℚ) ≤ 1) hym
    rw [hx1]
    exact this.2

lemma elecSchedule_getD_zero {ne : Nat} (wv : Nat) (hne : 1 ≤ ne) :
    (elecSchedule ne wv).getD 0 0 = 1 := by
  rw [elecSchedule_eq, List.getD_append _ _ _ _ (by rw [linspace_length]; omega)]
  exact linspace_head 1 0 hne 0

lemma elecSchedule_getD_ramp_end {ne : Nat} (wv : Nat) (hne : 2 ≤ ne) :
    (elecSchedule ne wv).getD (ne - 1) 0 = 0 := by
  rw [elecSchedule_eq, List.getD_append _ _ _ _ (by rw [linspace_length]; omega)]
  exact linspace_last 1 0 hne 0

lemma elecSchedule_getD_tail {ne wv i : Nat} (h1 : ne ≤ i) (h2 : i < ne + wv) :
    (elecSchedule ne wv).getD i 0 = 0 := by
  rw [elecSchedule_eq,
    List.getD_append_right _ _ _ _ (by rw [linspace_length]; omega)]
  rw [linspace_length, List.getD_eq_getElem?_getD,
    List.getElem?_replicate_of_lt (by omega)]
  rfl

lemma sterSchedule_getD_head {ne i : Nat} (wv : Nat) (h : i < ne) :
    (sterSchedule ne wv).getD i 0 = 1 := by
  unfold sterSchedule
  rw [linspace_const, List.getD_append _ _ _ _ (by simp; omega),
    List.getD_eq_getElem?_getD, List.getElem?_replicate_of_lt h]
  rfl

lemma sterSchedule_getD_last {ne wv : Nat} (hwv : 1 ≤ wv) :
    (sterSchedule ne wv).getD (ne + wv - 1) 0 = 0 := by
  unfold sterSchedule
  rw [linspace_const,
    List.getD_append_right _ _ _ _ (by simp; omega)]
  rw [List.length_replicate, sterTail_getD]
  have hidx : 1 + (ne + wv - 1 - ne) = (wv + 1) - 1 := by omega
  rw [hidx]
  exact linspace_last 1 0 (by omega) 0

/-- C5: for window counts `n_elec, n_vdw ≥ 1`, `_get_lambda_schedule` returns
electrostatics and sterics arrays of equal length `n_elec + n_vdw`, both
monotonically non-increasing, with electrostatics ramping 1→0 over the first
`n_elec` entries and holding 0 afterwards, sterics holding 1 over the first
`n_elec` entries and ramping 1→0 over the rest, so that wherever the sterics
value is below 1 the electrostatics value is exactly 0 (no naked-charge state
by construction); and it raises `ValueError` exactly when
`sampler_settings.n_replicas` differs from that length. -/
theorem get_lambda_schedule_spec :
    (∀ (al : AlchemicalSettings) (sp : AlchemicalSamplerSettings)
      (elec ster : List ℚ),
      1 ≤ al.lambda_elec_windows → 1 ≤ al.lambda_vdw_windows →
      get_lambda_schedule al sp = .ok (elec, ster) →
      (elec.length = al.lambda_elec_windows + al.lambda_vdw_windows ∧
       ster.length = al.lambda_elec_windows + al.lambda_vdw_windows ∧
       sp.n_replicas = al.lambda_elec_windows + al.lambda_vdw_windows ∧
       List.Chain' (fun x y => y ≤ x) elec ∧
       List.Chain' (fun x y => y ≤ x) ster ∧
       elec.getD 0 0 = 1 ∧
       (2 ≤ al.lambda_elec_windows →
         elec.getD (al.lambda_elec_windows - 1) 0 = 0) ∧
       (∀ i, al.lambda_elec_windows ≤ i → i < elec.length →
         elec.getD i 0 = 0) ∧
       (∀ i, i < al.lambda_elec_windows → ster.getD i 0 = 1) ∧
       ster.getD (al.lambda_elec_windows + al.lambda_vdw_windows - 1) 0 = 0 ∧
       (∀ i, i < ster.length → ster.getD i 0 < 1 → elec.getD i 0 = 0))) ∧
    (∀ (al : AlchemicalSettings) (sp : AlchemicalSamplerSettings),
      sp.n_replicas ≠ al.lambda_elec_windows + al.lambda_vdw_windows →
      get_lambda_schedule al sp
        = .error (.valueError
            "replicas does not equal the number of lambda windows")) := by
  constructor
  · intro al sp elec ster hne hwv hok
    unfold get_lambda_schedule at hok
    set ne := al.lambda_elec_windows with hne_def
    set wv := al.lambda_vdw_windows with hwv_def
    by_cases hcond : sp.n_replicas ≠ (sterSchedule ne wv).length
    · rw [if_pos hcond] at hok
      exact absurd hok (by simp)
    · rw [if_neg hcond] at hok
      have hpair : elecSchedule ne wv = elec ∧ sterSchedule ne wv = ster := by
        have h1 := Except.ok.inj hok
        exact ⟨congrArg Prod.fst h1, congrArg Prod.snd h1⟩
      obtain ⟨helec, hster⟩ := hpair
      subst helec
      subst hster
      push_neg at hcond
      refine ⟨elecSchedule_length ne wv, sterSchedule_length ne wv, ?_,
        elecSchedule_chain ne wv, sterSchedule_chain ne wv,
        elecSchedule_getD_zero wv hne,
        fun h2 => elecSchedule_getD_ramp_end wv h2, ?_, ?_,
        sterSchedule_getD_last hwv, ?_⟩
      · rw [hcond, sterSchedule_length]
      · intro i h1 h2
        rw [elecSchedule_length] at h2
        exact elecSchedule_getD_tail h1 h2
      · intro i h
        exact sterSchedule_getD_head wv h
      · intro i hi hlt
        rcases Nat.lt_or_ge i ne with hcase | hcase
        · exact absurd hlt (by rw [sterSchedule_getD_head wv hcase]; norm_num)
        · rw [sterSchedule_length] at hi
          exact elecSchedule_getD_tail hcase hi
  · intro al sp hne
    unfold get_lambda_schedule
    rw [if_pos (by rw [sterSchedule_length]; exact hne)]

/-- Concrete instantiation of `get_lambda_schedule_spec`: with 2
electrostatic windows, 3 vdW windows and 5 replicas, the schedule is
accepted and the final window has fully decoupled sterics and zero
electrostatics. -/
theorem get_lambda_schedule_spec_witness :
    (1:Nat) ≤ 2 ∧ (1:Nat) ≤ 3 ∧
    (get_lambda_schedule { lambda_elec_windows := 2, lambda_vdw_windows := 3 }
        { n_replicas := 5 }
      = .ok (elecSchedule 2 3, sterSchedule 2 3)) ∧
    (sterSchedule 2 3).getD (2 + 3 - 1) 0 = 0 ∧
    (elecSchedule 2 3).getD 0 0 = 1 := by
  have h := (get_lambda_schedule_spec.1
    { lambda_elec_windows := 2, lambda_vdw_windows := 3 }
    { n_replicas := 5 } (elecSchedule 2 3) (sterSchedule 2 3)
    (by norm_num) (by norm_num) (by rfl))
  exact ⟨by norm_num, by norm_num, by rfl, h.2.2.2.2.2.2.2.2.2.1,
    h.2.2.2.2.2.1⟩

/-! ## Unit results, DAG results, and the two `_gather` implementations -/

/-- An `openff.units` quantity: magnitude `m` and a unit represented by its
positive scale factor `u` relative to a fixed base unit of the same
dimension.  `pint` conversion `q.to(u2)` rescales the magnitude. -/
structure Quan where
  m : ℚ
  u : ℚ
  deriving DecidableEq, Repr

/-- `pint`: `q.to(u2)` — express `q` in unit `u2`. -/
def Quan.convert (q : Quan) (u2 : ℚ) : Quan :=
  { m := q.m * q.u / u2, u := u2 }

/-- Opaque payload of one forward/reverse analysis dictionary (`fractions`,
`forward_DGs`, ...); its contents are never inspected by the embedded
code, only its presence or absence (`None`). -/
structure FRData where
  payload : ℚ
  deriving DecidableEq, Repr

/-- Modelled from the spec: the per-unit outputs record produced by
`BaseAbsoluteUnit.run` (`base.py` is not part of the excerpted sources).
Spec §6 lists the fields; §3 and the glossary fix `standard_state_correction`
as a scalar energy quantity, and `forward_and_reverse_energies` as an
optional (possibly `None`) diagnostic dictionary. -/
structure PUOutputs where
  simtype : String
  repeat_id : Nat
  generation : Nat
  unit_estimate : Quan
  unit_estimate_error : Quan
  standard_state_correction : Quan
  forward_and_reverse_energies : Option FRData
  nc : String
  last_checkpoint : String
  deriving DecidableEq, Repr

/-- `gufe.ProtocolUnitResult`: `ok()` plus the outputs dict. -/
structure ProtocolUnitResult where
  ok : Bool
  outputs : PUOutputs
  deriving DecidableEq, Repr

/-- `gufe.ProtocolDAGResult`: the `protocol_unit_results` sequence. -/
structure ProtocolDAGResult where
  protocol_unit_results : List ProtocolUnitResult
  deriving DecidableEq, Repr

/-- The flat stream of unit results seen by the `for d in
protocol_dag_results: for pu in d.protocol_unit_results` loops. -/
def collectUnits (dags : List ProtocolDAGResult) : List ProtocolUnitResult :=
  dags.flatMap (fun d => d.protocol_unit_results)

/-- `defaultdict(list)` append: `groups[k].append(x)`, creating the key at
the end on first use (Python dict insertion order). -/
def addToGroup {α : Type} : List (Nat × List α) → Nat → α → List (Nat × List α)
  | [], k, x => [(k, [x])]
  | (k0, xs) :: rest, k, x =>
      if k0 = k then (k0, xs ++ [x]) :: rest
      else (k0, xs) :: addToGroup rest k x

/-- One iteration of the binding `_gather` loop body: skip failed units,
then group by `repeat_id` into the solvent or complex `defaultdict`
according to `simtype == 'solvent'`. -/
def bindingStep (acc : List (Nat × List ProtocolUnitResult) ×
    List (Nat × List ProtocolUnitResult)) (pu : ProtocolUnitResult) :
    List (Nat × List ProtocolUnitResult) ×
    List (Nat × List ProtocolUnitResult) :=
  if pu.ok = true then
    if pu.outputs.simtype = "solvent" then
      (addToGroup acc.1 pu.outputs.repeat_id pu, acc.2)
    else
      (acc.1, addToGroup acc.2 pu.outputs.repeat_id pu)
  else acc

/-- The nested `for d in protocol_dag_results: for pu in ...` grouping loop
of `AbsoluteBindingProtocol._gather`. -/
def bindingGatherPairs (dags : List ProtocolDAGResult) :
    List (Nat × List ProtocolUnitResult) ×
    List (Nat × List ProtocolUnitResult) :=
  dags.foldl (fun acc d => d.protocol_unit_results.foldl bindingStep acc)
    ([], [])

/-- `sorted(v, key=lambda x: x.outputs['generation'])` ordering. -/
def genLe (a b : ProtocolUnitResult) : Prop :=
  a.outputs.generation ≤ b.outputs.generation

instance : DecidableRel genLe := fun a b =>
  Nat.decLe a.outputs.generation b.outputs.generation

instance : IsTotal ProtocolUnitResult genLe :=
  ⟨fun a b => Nat.le_total a.outputs.generation b.outputs.generation⟩

instance : IsTrans ProtocolUnitResult genLe :=
  ⟨fun _ _ _ h1 h2 => Nat.le_trans h1 h2⟩

/-- The grouped structure returned by `AbsoluteBindingProtocol._gather`:
a dict with exactly the keys `'solvent'` and `'complex'`, each an
insertion-ordered dict from repeat id to the sorted repeat list.  (The
source keys inner dicts by `str(repeat_id)`; `str` is injective on ints,
so the `Nat` key is kept.) -/
structure GatherOutput where
  solvent : List (Nat × List ProtocolUnitResult)
  complex : List (Nat × List ProtocolUnitResult)
  deriving DecidableEq, Repr

namespace AbsoluteBindingProtocol

/-- `AbsoluteBindingProtocol._gather`. -/
def gather (dags : List ProtocolDAGResult) : GatherOutput :=
  let pairs := bindingGatherPairs dags
  { solvent := pairs.1.map (fun p => (p.1, List.insertionSort genLe p.2)),
    complex := pairs.2.map (fun p => (p.1, List.insertionSort genLe p.2)) }

end AbsoluteBindingProtocol

/-- One iteration of the solvation `_gather` loop body: skip failed units,
group the `(generation, nc, last_checkpoint)` tuple by `repeat_id` —
`simtype` is never consulted. -/
def solvStep (acc : List (Nat × List (Nat × String × String)))
    (pu : ProtocolUnitResult) : List (Nat × List (Nat × String × String)) :=
  if pu.ok = true then
    addToGroup acc pu.outputs.repeat_id
      (pu.outputs.generation, pu.outputs.nc, pu.outputs.last_checkpoint)
  else acc

/-- The grouping loop of `AbsoluteSolvationProtocol._gather`. -/
def solvGatherPairs (dags : List ProtocolDAGResult) :
    List (Nat × List (Nat × String × String)) :=
  dags.foldl (fun acc d => d.protocol_unit_results.foldl solvStep acc) []

/-- Python tuple comparison on `(generation, nc, last_checkpoint)` used by
`sorted(rep_data)`. -/
def tripleLe (a b : Nat × String × String) : Prop :=
  a.1 < b.1 ∨ (a.1 = b.1 ∧ (a.2.1 < b.2.1 ∨ (a.2.1 = b.2.1 ∧ a.2.2 ≤ b.2.2)))

instance : DecidableRel tripleLe := fun a b => by
  unfold tripleLe
  infer_instance

/-- `sorted(repeats.items())` key comparison (repeat ids are unique, so the
tuple comparison reduces to the integer keys). -/
def repLe (a b : Nat × List (Nat × String × String)) : Prop := a.1 ≤ b.1

instance : DecidableRel repLe := fun a b => Nat.decLe a.1 b.1

/-- One entry of the `'nc_files'` list of `AbsoluteSolvationProtocol._gather`. -/
structure NCEntry where
  nc_paths : List String
  checkpoint_paths : List String
  deriving DecidableEq, Repr

/-- The structure returned by `AbsoluteSolvationProtocol._gather`:
`{'nc_files': [...]}`. -/
structure SolvGatherOutput where
  nc_files : List NCEntry
  deriving DecidableEq, Repr

namespace AbsoluteSolvationProtocol

/-- `AbsoluteSolvationProtocol._gather`. -/
def gather (dags : List ProtocolDAGResult) : SolvGatherOutput :=
  let reps := List.insertionSort repLe (solvGatherPairs dags)
  { nc_files := reps.map (fun p =>
      let rd := List.insertionSort tripleLe p.2
      { nc_paths := rd.map (fun t => t.2.1),
        checkpoint_paths := rd.map (fun t => t.2.2) }) }

end AbsoluteSolvationProtocol

lemma nested_foldl_eq_collect {β : Type} (f : β → ProtocolUnitResult → β)
    (dags : List ProtocolDAGResult) (init : β) :
    dags.foldl (fun acc d => d.protocol_unit_results.foldl f acc) init
      = (collectUnits dags).foldl f init := by
  induction dags generalizing init with
  | nil => rfl
  | cons d rest ih =>
    show rest.foldl _ (d.protocol_unit_results.foldl f init) = _
    rw [ih, show collectUnits (d :: rest)
      = d.protocol_unit_results ++ collectUnits rest from rfl,
      List.foldl_append]

lemma addToGroup_mem_inv {α : Type} {gs : List (Nat × List α)} {k : Nat}
    {x : α} {p : Nat × List α} (h : p ∈ addToGroup gs k x) :
    p ∈ gs ∨ (p.1 = k ∧ (p.2 = [x] ∨ ∃ l, (k, l) ∈ gs ∧ p.2 = l ++ [x])) := by
  induction gs with
  | nil =>
    right
    rw [show addToGroup [] k x = [(k, [x])] from rfl] at h
    rcases List.mem_singleton.mp h with rfl
    exact ⟨rfl, Or.inl rfl⟩
  | cons g rest ih =>
    obtain ⟨k0, xs⟩ := g
    rw [show addToGroup ((k0, xs) :: rest) k x
      = if k0 = k then (k0, xs ++ [x]) :: rest
        else (k0, xs) :: addToGroup rest k x from rfl] at h
    by_cases hk : k0 = k
    · rw [if_pos hk] at h
      rcases List.mem_cons.mp h with rfl | hmem
      · right
        exact ⟨hk, Or.inr ⟨xs, by rw [hk]; exact List.mem_cons_self _ _, rfl⟩⟩
      · exact Or.inl (List.mem_cons_of_mem _ hmem)
    · rw [if_neg hk] at h
      rcases List.mem_cons.mp h with rfl | hmem
      · exact Or.inl (List.mem_cons_self _ _)
      · rcases ih hmem with h1 | ⟨h1, h2⟩
        · exact Or.inl (List.mem_cons_of_mem _ h1)
        · refine Or.inr ⟨h1, ?_⟩
          rcases h2 with h2 | ⟨l, hl, h2⟩
          · exact Or.inl h2
          · exact Or.inr ⟨l, List.mem_cons_of_mem _ hl, h2⟩

lemma addToGroup_preserve {α : Type} {gs : List (Nat × List α)} {k : Nat}
    {x : α} {p : Nat × List α} (h : p ∈ gs) :
    p ∈ addToGroup gs k x ∨ (p.1 = k ∧ (p.1, p.2 ++ [x]) ∈ addToGroup gs k x) := by
  induction gs with
  | nil => simp at h
  | cons g rest ih =>
    obtain ⟨k0, xs⟩ := g
    rw [show addToGroup ((k0, xs) :: rest) k x
      = if k0 = k then (k0, xs ++ [x]) :: rest
        else (k0, xs) :: addToGroup rest k x from rfl]
    by_cases hk : k0 = k
    · rw [if_pos hk]
      rcases List.mem_cons.mp h with rfl | hmem
      · exact Or.inr ⟨hk, List.mem_cons_self _ _⟩
      · exact Or.inl (List.mem_cons_of_mem _ hmem)
    · rw [if_neg hk]
      rcases List.mem_cons.mp h with rfl | hmem
      · exact Or.inl (List.mem_cons_self _ _)
      · rcases ih hmem with h1 | ⟨h1, h2⟩
        · exact Or.inl (List.mem_cons_of_mem _ h1)
        · exact Or.inr ⟨h1, List.mem_cons_of_mem _ h2⟩

lemma addToGroup_self {α : Type} (gs : List (Nat × List α)) (k : Nat) (x : α) :
    ∃ l, (k, l) ∈ addToGroup gs k x ∧ x ∈ l := by
  induction gs with
  | nil =>
    exact ⟨[x], by rw [show addToGroup [] k x = [(k, [x])] from rfl]; simp, by simp⟩
  | cons g rest ih =>
    obtain ⟨k0, xs⟩ := g
    rw [show addToGroup ((k0, xs) :: rest) k x
      = if k0 = k then (k0, xs ++ [x]) :: rest
        else (k0, xs) :: addToGroup rest k x from rfl]
    by_cases hk : k0 = k
    · rw [if_pos hk]
      subst hk
      exact ⟨xs ++ [x], List.mem_cons_self _ _, by simp⟩
    · rw [if_neg hk]
      obtain ⟨l, hl, hx⟩ := ih
      exact ⟨l, List.mem_cons_of_mem _ hl, hx⟩

/-- Grouping fold: `for x in units: groups[key(x)].append(x)`. -/
def groupFold {α : Type} (key : α → Nat) (units : List α)
    (acc : List (Nat × List α)) : List (Nat × List α) :=
  units.foldl (fun a x => addToGroup a (key x) x) acc

lemma groupFold_sound {α : Type} (key : α → Nat) (P : α → Prop)
    (units : List α) :
    ∀ (acc : List (Nat × List α)),
    (∀ p ∈ acc, ∀ x ∈ p.2, key x = p.1 ∧ P x) → (∀ x ∈ units, P x) →
    ∀ p ∈ groupFold key units acc, ∀ x ∈ p.2, key x = p.1 ∧ P x := by
  induction units with
  | nil => intro acc hacc _ p hp; exact hacc p hp
  | cons u rest ih =>
    intro acc hacc hu p hp x hx
    refine ih (addToGroup acc (key u) u) ?_
      (fun y hy => hu y (List.mem_cons_of_mem _ hy)) p hp x hx
    intro q hq y hy
    rcases addToGroup_mem_inv hq with hq1 | ⟨hqk, hq2⟩
    · exact hacc q hq1 y hy
    · have hpu : P u := hu u (List.mem_cons_self _ _)
      rcases hq2 with h2 | ⟨l, hl, h2⟩
      · rw [h2] at hy
        rcases List.mem_singleton.mp hy with rfl
        exact ⟨hqk.symm, hpu⟩
      · rw [h2] at hy
        rcases List.mem_append.mp hy with hy1 | hy1
        · have := hacc (key u, l) hl y hy1
          exact ⟨this.1.trans hqk.symm, this.2⟩
        · rcases List.mem_singleton.mp hy1 with rfl
          exact ⟨hqk.symm, hpu⟩

lemma groupFold_complete {α : Type} (key : α → Nat) (units : List α) :
    ∀ (acc : List (Nat × List α)) (x : α),
    (x ∈ units ∨ ∃ l, (key x, l) ∈ acc ∧ x ∈ l) →
    ∃ l, (key x, l) ∈ groupFold key units acc ∧ x ∈ l := by
  induction units with
  | nil =>
    intro acc x hx
    rcases hx with h | h
    · simp at h
    · exact h
  | cons u rest ih =>
    intro acc x hx
    refine ih (addToGroup acc (key u) u) x ?_
    rcases hx with hx | ⟨l, hl, hxl⟩
    · rcases List.mem_cons.mp hx with rfl | hx1
      · exact Or.inr (addToGroup_self acc (key x) x)
      · exact Or.inl hx1
    · refine Or.inr ?_
      rcases addToGroup_preserve (k := key u) (x := u) hl with h1 | ⟨-, h2⟩
      · exact ⟨l, h1, hxl⟩
      · exact ⟨l ++ [u], h2, List.mem_append_left _ hxl⟩

lemma bindingFold_fst (units : List ProtocolUnitResult)
    (acc : List (Nat × List ProtocolUnitResult) ×
      List (Nat × List ProtocolUnitResult)) :
    (units.foldl bindingStep acc).1
      = groupFold (fun pu => pu.outputs.repeat_id)
        (units.filter (fun pu => pu.ok && (pu.outputs.simtype == "solvent")))
        acc.1 := by
  induction units generalizing acc with
  | nil => rfl
  | cons u rest ih =>
    show (rest.foldl bindingStep (bindingStep acc u)).1 = _
    rw [List.filter_cons]
    by_cases hok : u.ok = true
    · by_cases hst : u.outputs.simtype = "solvent"
      · rw [if_pos (by simp [hok, hst])]
        rw [ih (bindingStep acc u)]
        rw [show bindingStep acc u
          = (addToGroup acc.1 u.outputs.repeat_id u, acc.2) from by
            unfold bindingStep; rw [if_pos hok, if_pos hst]]
        rfl
      · rw [if_neg (by simp [hst])]
        rw [ih (bindingStep acc u)]
        rw [show bindingStep acc u
          = (acc.1, addToGroup acc.2 u.outputs.repeat_id u) from by
            unfold bindingStep; rw [if_pos hok, if_neg hst]]
    · rw [if_neg (by simp [hok])]
      rw [ih (bindingStep acc u)]
      rw [show bindingStep acc u = acc from by unfold bindingStep; rw [if_neg hok]]

lemma bindingFold_snd (units : List ProtocolUnitResult)
    (acc : List (Nat × List ProtocolUnitResult) ×
      List (Nat × List ProtocolUnitResult)) :
    (units.foldl bindingStep acc).2
      = groupFold (fun pu => pu.outputs.repeat_id)
        (units.filter (fun pu => pu.ok && !(pu.outputs.simtype == "solvent")))
        acc.2 := by
  induction units generalizing acc with
  | nil => rfl
  | cons u rest ih =>
    show (rest.foldl bindingStep (bindingStep acc u)).2 = _
    rw [List.filter_cons]
    by_cases hok : u.ok = true
    · by_cases hst : u.outputs.simtype = "solvent"
      · rw [if_neg (by simp [hst])]
        rw [ih (bindingStep acc u)]
        rw [show bindingStep acc u
          = (addToGroup acc.1 u.outputs.repeat_id u, acc.2) from by
            unfold bindingStep; rw [if_pos hok, if_pos hst]]
      · rw [if_pos (by simp [hok, hst])]
        rw [ih (bindingStep acc u)]
        rw [show bindingStep acc u
          = (acc.1, addToGroup acc.2 u.outputs.repeat_id u) from by
            unfold bindingStep; rw [if_pos hok, if_neg hst]]
        rfl
    · rw [if_neg (by simp [hok])]
      rw [ih (bindingStep acc u)]
      rw [show bindingStep acc u = acc from by unfold bindingStep; rw [if_neg hok]]

/-- Replace the `simtype` output field, keeping everything else. -/
def setSimtype (f : String → String) (pu : ProtocolUnitResult) :
    ProtocolUnitResult :=
  { pu with outputs := { pu.outputs with simtype := f pu.outputs.simtype } }

/-- Apply `setSimtype` to every unit result of every DAG result. -/
def mapSimtype (f : String → String) (dags : List ProtocolDAGResult) :
    List ProtocolDAGResult :=
  dags.map (fun d =>
    { protocol_unit_results := d.protocol_unit_results.map (setSimtype f) })

lemma solvStep_setSimtype (acc : List (Nat × List (Nat × String × String)))
    (f : String → String) (pu : ProtocolUnitResult) :
    solvStep acc (setSimtype f pu) = solvStep acc pu := rfl

lemma collectUnits_mapSimtype (f : String → String)
    (dags : List ProtocolDAGResult) :
    collectUnits (mapSimtype f dags) = (collectUnits dags).map (setSimtype f) := by
  induction dags with
  | nil => rfl
  | cons d rest ih =>
    show (d.protocol_unit_results.map (setSimtype f))
        ++ collectUnits (mapSimtype f rest) = _
    rw [ih, show collectUnits (d :: rest)
      = d.protocol_unit_results ++ collectUnits rest from rfl, List.map_append]

lemma foldl_solvStep_map (f : String → String) (l : List ProtocolUnitResult) :
    ∀ acc, (l.map (setSimtype f)).foldl solvStep acc = l.foldl solvStep acc := by
  induction l with
  | nil => intro acc; rfl
  | cons u rest ih =>
    intro acc
    show (rest.map (setSimtype f)).foldl solvStep (solvStep acc (setSimtype f u)) = _
    rw [solvStep_setSimtype, ih]
    rfl

/-! ### Concrete unit results used in witnesses and counterexamples -/

/-- A successful solvent-leg unit result (repeat 0, generation 0). -/
def puSolvA : ProtocolUnitResult :=
  { ok := true,
    outputs :=
      { simtype := "solvent", repeat_id := 0, generation := 0,
        unit_estimate := ⟨-2, 1⟩, unit_estimate_error := ⟨1, 1⟩,
        standard_state_correction := ⟨1, 1⟩,
        forward_and_reverse_energies := some ⟨0⟩,
        nc := "s.nc", last_checkpoint := "s_chk.nc" } }

/-- A successful vacuum-leg unit result with the same repeat id as
`puSolvA` but generation 1. -/
def puVacA : ProtocolUnitResult :=
  { ok := true,
    outputs :=
      { simtype := "vacuum", repeat_id := 0, generation := 1,
        unit_estimate := ⟨-3, 1⟩, unit_estimate_error := ⟨1, 1⟩,
        standard_state_correction := ⟨1, 1⟩,
        forward_and_reverse_energies := some ⟨0⟩,
        nc := "v.nc", last_checkpoint := "v_chk.nc" } }

/-- A failed unit result. -/
def puFail : ProtocolUnitResult :=
  { ok := false,
    outputs :=
      { simtype := "solvent", repeat_id := 7, generation := 0,
        unit_estimate := ⟨0, 1⟩, unit_estimate_error := ⟨0, 1⟩,
        standard_state_correction := ⟨0, 1⟩,
        forward_and_reverse_energies := none,
        nc := "f.nc", last_checkpoint := "f_chk.nc" } }

/-- C10: both `_gather` implementations are deterministic, side-effect-free
functions of the flat stream of unit results — two DAG-result collections
carrying the same stream gather identically; in particular two calls on the
same input agree. -/
theorem gather_deterministic (d1 d2 : List ProtocolDAGResult)
    (h : collectUnits d1 = collectUnits d2) :
    AbsoluteBindingProtocol.gather d1 = AbsoluteBindingProtocol.gather d2 ∧
    AbsoluteSolvationProtocol.gather d1 = AbsoluteSolvationProtocol.gather d2 := by
  have hb : bindingGatherPairs d1 = bindingGatherPairs d2 := by
    unfold bindingGatherPairs
    rw [nested_foldl_eq_collect, nested_foldl_eq_collect, h]
  have hs : solvGatherPairs d1 = solvGatherPairs d2 := by
    unfold solvGatherPairs
    rw [nested_foldl_eq_collect, nested_foldl_eq_collect, h]
  constructor
  · unfold AbsoluteBindingProtocol.gather
    rw [hb]
  · unfold AbsoluteSolvationProtocol.gather
    rw [hs]

/-- Concrete instantiation of `gather_deterministic`: regrouping the same
three unit results into different DAG results leaves both gathers
unchanged. -/
theorem gather_deterministic_witness :
    collectUnits [⟨[puSolvA]⟩, ⟨[puVacA, puFail]⟩]
      = collectUnits [⟨[puSolvA, puVacA, puFail]⟩] ∧
    AbsoluteBindingProtocol.gather [⟨[puSolvA]⟩, ⟨[puVacA, puFail]⟩]
      = AbsoluteBindingProtocol.gather [⟨[puSolvA, puVacA, puFail]⟩] ∧
    AbsoluteSolvationProtocol.gather [⟨[puSolvA]⟩, ⟨[puVacA, puFail]⟩]
      = AbsoluteSolvationProtocol.gather [⟨[puSolvA, puVacA, puFail]⟩] :=
  ⟨rfl, (gather_deterministic _ _ rfl).1, (gather_deterministic _ _ rfl).2⟩

/-- C6 counterexample: `AbsoluteSolvationProtocol._gather` does not
partition by leg.  A solvent-leg unit and a vacuum-leg unit sharing a
repeat id are merged into one `nc_files` group whose path lists interleave
both legs, with no per-leg keys in the output at all. -/
theorem solvation_gather_merges_legs :
    puSolvA.outputs.simtype = "solvent" ∧
    puVacA.outputs.simtype = "vacuum" ∧
    AbsoluteSolvationProtocol.gather [⟨[puSolvA, puVacA]⟩]
      = ⟨[⟨["s.nc", "v.nc"], ["s_chk.nc", "v_chk.nc"]⟩]⟩ :=
  ⟨rfl, rfl, rfl⟩

/-- C6 (amended): the binding protocol's `_gather` partitions the successful
unit results first by leg (`simtype == 'solvent'` vs the rest), then by
`repeat_id`, with each repeat's list ordered by ascending generation, and
excludes every unit result whose `ok()` is false, without raising; the
solvation protocol's `_gather`, in contrast, groups by `repeat_id` alone and
is invariant under arbitrary rewriting of the `simtype` outputs. -/
theorem gather_partitions :
    (∀ dags : List ProtocolDAGResult,
      (∀ p ∈ (AbsoluteBindingProtocol.gather dags).solvent,
        List.Pairwise genLe p.2 ∧
        ∀ pu ∈ p.2, pu.ok = true ∧ pu.outputs.simtype = "solvent" ∧
          pu.outputs.repeat_id = p.1 ∧ pu ∈ collectUnits dags) ∧
      (∀ p ∈ (AbsoluteBindingProtocol.gather dags).complex,
        List.Pairwise genLe p.2 ∧
        ∀ pu ∈ p.2, pu.ok = true ∧ pu.outputs.simtype ≠ "solvent" ∧
          pu.outputs.repeat_id = p.1 ∧ pu ∈ collectUnits dags) ∧
      (∀ pu ∈ collectUnits dags, pu.ok = true →
        (pu.outputs.simtype = "solvent" →
          ∃ p, p ∈ (AbsoluteBindingProtocol.gather dags).solvent ∧
            p.1 = pu.outputs.repeat_id ∧ pu ∈ p.2) ∧
        (pu.outputs.simtype ≠ "solvent" →
          ∃ p, p ∈ (AbsoluteBindingProtocol.gather dags).complex ∧
            p.1 = pu.outputs.repeat_id ∧ pu ∈ p.2))) ∧
    (∀ (f : String → String) (dags : List ProtocolDAGResult),
      AbsoluteSolvationProtocol.gather (mapSimtype f dags)
        = AbsoluteSolvationProtocol.gather dags) := by
  constructor
  · intro dags
    have hpairs : bindingGatherPairs dags
        = (collectUnits dags).foldl bindingStep ([], []) :=
      nested_foldl_eq_collect _ _ _
    have h1 : (bindingGatherPairs dags).1
        = groupFold (fun pu => pu.outputs.repeat_id)
          ((collectUnits dags).filter
            (fun pu => pu.ok && (pu.outputs.simtype == "solvent"))) [] := by
      rw [hpairs]
      exact bindingFold_fst (collectUnits dags) ([], [])
    have h2 : (bindingGatherPairs dags).2
        = groupFold (fun pu => pu.outputs.repeat_id)
          ((collectUnits dags).filter
            (fun pu => pu.ok && !(pu.outputs.simtype == "solvent"))) [] := by
      rw [hpairs]
      exact bindingFold_snd (collectUnits dags) ([], [])
    have hsoundS := groupFold_sound (fun pu => pu.outputs.repeat_id)
      (fun pu => pu.ok = true ∧ pu.outputs.simtype = "solvent" ∧
        pu ∈ collectUnits dags)
      ((collectUnits dags).filter
        (fun pu => pu.ok && (pu.outputs.simtype == "solvent"))) []
      (by intro p hp; exact absurd hp (List.not_mem_nil p))
      (by
        intro x hx
        obtain ⟨hm, hpred⟩ := List.mem_filter.mp hx
        refine ⟨?_, ?_, hm⟩
        · exact (Bool.and_eq_true _ _ ▸ hpred).1
        · exact beq_iff_eq.mp (Bool.and_eq_true _ _ ▸ hpred).2)
    have hsoundC := groupFold_sound (fun pu => pu.outputs.repeat_id)
      (fun pu => pu.ok = true ∧ pu.outputs.simtype ≠ "solvent" ∧
        pu ∈ collectUnits dags)
      ((collectUnits dags).filter
        (fun pu => pu.ok && !(pu.outputs.simtype == "solvent"))) []
      (by intro p hp; exact absurd hp (List.not_mem_nil p))
      (by
        intro x hx
        obtain ⟨hm, hpred⟩ := List.mem_filter.mp hx
        refine ⟨?_, ?_, hm⟩
        · exact (Bool.and_eq_true _ _ ▸ hpred).1
        · intro hcon
          have := (Bool.and_eq_true _ _ ▸ hpred).2
          rw [hcon] at this
          simp at this)
    refine ⟨?_, ?_, ?_⟩
    · intro p hp
      obtain ⟨q, hq, hqp⟩ := List.mem_map.mp hp
      refine ⟨?_, ?_⟩
      · rw [← hqp]
        exact List.sorted_insertionSort genLe q.2
      · intro pu hpu
        rw [← hqp] at hpu
        have hpu2 : pu ∈ q.2 :=
          (List.perm_insertionSort genLe q.2).mem_iff.mp hpu
        rw [h1] at hq
        obtain ⟨hkey, hok, hst, hmem⟩ := hsoundS q hq pu hpu2
        rw [← hqp]
        exact ⟨hok, hst, hkey, hmem⟩
    · intro p hp
      obtain ⟨q, hq, hqp⟩ := List.mem_map.mp hp
      refine ⟨?_, ?_⟩
      · rw [← hqp]
        exact List.sorted_insertionSort genLe q.2
      · intro pu hpu
        rw [← hqp] at hpu
        have hpu2 : pu ∈ q.2 :=
          (List.perm_insertionSort genLe q.2).mem_iff.mp hpu
        rw [h2] at hq
        obtain ⟨hkey, hok, hst, hmem⟩ := hsoundC q hq pu hpu2
        rw [← hqp]
        exact ⟨hok, hst, hkey, hmem⟩
    · intro pu hmem hok
      constructor
      · intro hst
        have hfil : pu ∈ (collectUnits dags).filter
            (fun pu => pu.ok && (pu.outputs.simtype == "solvent")) :=
          List.mem_filter.mpr ⟨hmem, by simp [hok, hst]⟩
        obtain ⟨l, hl, hpul⟩ := groupFold_complete
          (fun pu => pu.outputs.repeat_id) _ [] pu (Or.inl hfil)
        rw [← h1] at hl
        refine ⟨(pu.outputs.repeat_id, List.insertionSort genLe l), ?_, rfl, ?_⟩
        · exact List.mem_map.mpr ⟨(pu.outputs.repeat_id, l), hl, rfl⟩
        · exact (List.perm_insertionSort genLe l).mem_iff.mpr hpul
      · intro hst
        have hfil : pu ∈ (collectUnits dags).filter
            (fun pu => pu.ok && !(pu.outputs.simtype == "solvent")) :=
          List.mem_filter.mpr ⟨hmem, by simp [hok, hst]⟩
        obtain ⟨l, hl, hpul⟩ := groupFold_complete
          (fun pu => pu.outputs.repeat_id) _ [] pu (Or.inl hfil)
        rw [← h2] at hl
        refine ⟨(pu.outputs.repeat_id, List.insertionSort genLe l), ?_, rfl, ?_⟩
        · exact List.mem_map.mpr ⟨(pu.outputs.repeat_id, l), hl, rfl⟩
        · exact (List.perm_insertionSort genLe l).mem_iff.mpr hpul
  · intro f dags
    have hpairs : solvGatherPairs (mapSimtype f dags) = solvGatherPairs dags := by
      unfold solvGatherPairs
      rw [nested_foldl_eq_collect, nested_foldl_eq_collect,
        collectUnits_mapSimtype, foldl_solvStep_map]
    unfold AbsoluteSolvationProtocol.gather
    rw [hpairs]

/-- Concrete instantiation of `gather_partitions`: in a gathered stream of a
solvent unit, a vacuum unit and a failed unit, the solvent group of the
binding gather holds exactly the successful solvent unit. -/
theorem gather_partitions_witness :
    puSolvA.ok = true ∧ puSolvA.outputs.simtype = "solvent" ∧
    puSolvA.outputs.repeat_id = (0 : Nat) ∧
    puSolvA ∈ collectUnits [⟨[puSolvA, puVacA, puFail]⟩] := by
  have h := (gather_partitions.1 [⟨[puSolvA, puVacA, puFail]⟩]).1
    ((0 : Nat), [puSolvA]) (List.mem_singleton.mpr rfl)
  exact h.2 puSolvA (List.mem_singleton.mpr rfl)

/-! ## `AbsoluteBindingProtocolResult`: constructor and statistical reducers -/

/-- Python `l[0]`: head or `IndexError`. -/
def pyHead {α : Type} : List α → Except PyErr α
  | [] => .error .indexError
  | x :: _ => .ok x

/-- Python dict lookup on the grouped structure produced by
`AbsoluteBindingProtocol._gather`, whose keys are exactly `'solvent'` and
`'complex'`; any other key raises `KeyError`. -/
def GatherOutput.lookup (g : GatherOutput) (k : String) :
    Except PyErr (List (Nat × List ProtocolUnitResult)) :=
  if k = "solvent" then .ok g.solvent
  else if k = "complex" then .ok g.complex
  else .error (.keyError k)

namespace AbsoluteBindingProtocolResult

/-- `AbsoluteBindingProtocolResult.__init__`: after storing the data it
evaluates `itertools.chain(self.data['solvent'].values(),
self.data['vacuum'].values())` — both dict subscripts are evaluated eagerly
as arguments of `chain` — and raises `NotImplementedError` when any repeat
list holds more than two generations. -/
def init (g : GatherOutput) : Except PyErr GatherOutput := do
  let s ← g.lookup "solvent"
  let v ← g.lookup "vacuum"
  if ((s.map Prod.snd) ++ (v.map Prod.snd)).any (fun l => l.length > 2) then
    .error (.notImplementedError "cant stitch together results yet")
  else
    .ok g

/-- A value appended to one of the per-leg estimate lists of
`get_individual_estimates`: `'solvent'` and `'complex'` hold 2-tuples
`(estimate, uncertainty)`, `'standard_state'` holds bare quantities
(`correction_dGs.append((...))` has no trailing comma, so no tuple is
formed). -/
inductive PyVal where
  | scalar (q : Quan)
  | pair (fst snd : Quan)
  deriving DecidableEq, Repr

/-- Python `v[0]` on such a value: first tuple component, or the `pint`
`TypeError` (neither a scalar `Quantity` nor its magnitude supports
indexing). -/
def PyVal.index0 : PyVal → Except PyErr Quan
  | .pair a _ => .ok a
  | .scalar _ => .error (.typeError "quantity magnitude does not support indexing")

/-- The dictionary returned by `get_individual_estimates`. -/
structure IndividualEstimates where
  solvent : List PyVal
  complex : List PyVal
  standard_state : List PyVal
  deriving DecidableEq, Repr

/-- `AbsoluteBindingProtocolResult.get_individual_estimates`. -/
def get_individual_estimates (g : GatherOutput) :
    Except PyErr IndividualEstimates := do
  let complexDGs ← g.complex.mapM (fun p => do
    let pu ← pyHead p.2
    pure (PyVal.pair pu.outputs.unit_estimate pu.outputs.unit_estimate_error))
  let correctionDGs ← g.complex.mapM (fun p => do
    let pu ← pyHead p.2
    pure (PyVal.scalar pu.outputs.standard_state_correction))
  let solvDGs ← g.solvent.mapM (fun p => do
    let pu ← pyHead p.2
    pure (PyVal.pair pu.outputs.unit_estimate pu.outputs.unit_estimate_error))
  pure ⟨solvDGs, complexDGs, correctionDGs⟩

/-- `np.average` on rationals. -/
def npAverage (l : List ℚ) : ℚ := l.sum / l.length

/-- `pint` addition: the right operand is converted to the left operand's
unit. -/
def Quan.add (a b : Quan) : Quan := ⟨a.m + (b.convert a.u).m, a.u⟩

/-- `pint` negation. -/
def Quan.neg (a : Quan) : Quan := ⟨-a.m, a.u⟩

/-- The `_get_average` helper of `get_estimate`: reads the unit of
`estimates[0][0]`, converts every `i[0]` to it, and averages. -/
def get_average (estimates : List PyVal) : Except PyErr Quan := do
  let first ← pyHead estimates
  let q0 ← first.index0
  let ms ← estimates.mapM (fun e => do
    let q ← e.index0
    pure ((q.convert q0.u).m))
  pure ⟨npAverage ms, q0.u⟩

/-- `AbsoluteBindingProtocolResult.get_estimate`:
`- complex_dG + solv_dG + standard_state_dG`. -/
def get_estimate (g : GatherOutput) : Except PyErr Quan := do
  let ie ← get_individual_estimates g
  let complexDG ← get_average ie.complex
  let solvDG ← get_average ie.solvent
  let standardStateDG ← get_average ie.standard_state
  pure (Quan.add (Quan.add (Quan.neg complexDG) solvDG) standardStateDG)

/-- The value returned by `get_forward_and_reverse_energy_analysis`: the
two per-leg lists plus the `UserWarning`s emitted (in order). -/
structure FRAnalysis where
  solvent : List (Option FRData)
  complex : List (Option FRData)
  warnings : List String
  deriving DecidableEq, Repr

/-- `AbsoluteBindingProtocolResult.get_forward_and_reverse_energy_analysis`:
for each of `'solvent'` and `'complex'`, collect
`pus[0].outputs['forward_and_reverse_energies']` per repeat and warn once
if the collected list contains a `None`. -/
def get_forward_and_reverse_energy_analysis (g : GatherOutput) :
    Except PyErr FRAnalysis := do
  let s ← g.solvent.mapM (fun p => do
    let pu ← pyHead p.2
    pure pu.outputs.forward_and_reverse_energies)
  let wS := if none ∈ s then ["solvent"] else []
  let c ← g.complex.mapM (fun p => do
    let pu ← pyHead p.2
    pure pu.outputs.forward_and_reverse_energies)
  let wC := if none ∈ c then ["complex"] else []
  pure ⟨s, c, wS ++ wC⟩

end AbsoluteBindingProtocolResult

/-- C3: every grouped structure produced by the binding `_gather` has
top-level keys exactly `'solvent'` and `'complex'`, so the
`AbsoluteBindingProtocolResult` constructor, which subscripts
`self.data['vacuum']`, raises an uncaught `KeyError` on every such input —
no binding result object can be constructed from gathered binding
outputs. -/
theorem binding_result_init_keyerror (dags : List ProtocolDAGResult) :
    AbsoluteBindingProtocolResult.init (AbsoluteBindingProtocol.gather dags)
      = .error (.keyError "vacuum") := rfl

/-! ### C1: the combined-estimate example -/

/-- Complex-leg repeat 0: estimate −10.5 (complex leg mean −10, std 0.5). -/
def puC1 : ProtocolUnitResult :=
  { ok := true,
    outputs :=
      { simtype := "complex", repeat_id := 0, generation := 0,
        unit_estimate := ⟨-21/2, 1⟩, unit_estimate_error := ⟨1/2, 1⟩,
        standard_state_correction := ⟨9/10, 1⟩,
        forward_and_reverse_energies := some ⟨0⟩,
        nc := "c0.nc", last_checkpoint := "c0_chk.nc" } }

/-- Complex-leg repeat 1: estimate −9.5. -/
def puC2 : ProtocolUnitResult :=
  { ok := true,
    outputs :=
      { simtype := "complex", repeat_id := 1, generation := 0,
        unit_estimate := ⟨-19/2, 1⟩, unit_estimate_error := ⟨1/2, 1⟩,
        standard_state_correction := ⟨11/10, 1⟩,
        forward_and_reverse_energies := some ⟨0⟩,
        nc := "c1.nc", last_checkpoint := "c1_chk.nc" } }

/-- Solvent-leg repeat 0: estimate −2.2 (solvent leg mean −2, std 0.2). -/
def puS1 : ProtocolUnitResult :=
  { ok := true,
    outputs :=
      { simtype := "solvent", repeat_id := 0, generation := 0,
        unit_estimate := ⟨-11/5, 1⟩, unit_estimate_error := ⟨1/5, 1⟩,
        standard_state_correction := ⟨9/10, 1⟩,
        forward_and_reverse_energies := some ⟨0⟩,
        nc := "s0.nc", last_checkpoint := "s0_chk.nc" } }

/-- Solvent-leg repeat 1: estimate −1.8. -/
def puS2 : ProtocolUnitResult :=
  { ok := true,
    outputs :=
      { simtype := "solvent", repeat_id := 1, generation := 0,
        unit_estimate := ⟨-9/5, 1⟩, unit_estimate_error := ⟨1/5, 1⟩,
        standard_state_correction := ⟨11/10, 1⟩,
        forward_and_reverse_energies := some ⟨0⟩,
        nc := "s1.nc", last_checkpoint := "s1_chk.nc" } }

/-- The binding data set of the spec's combined-estimate example: per-leg
estimates complex = −10±0.5, solvent = −2±0.2, standard_state = 1±0.1, all
in one consistent unit. -/
def exBindingData : GatherOutput :=
  ⟨[(0, [puS1]), (1, [puS2])], [(0, [puC1]), (1, [puC2])]⟩

/-- C1 (code evaluated at the failing input): on the spec's own example
data, `get_individual_estimates` stores the standard-state corrections as
bare scalar quantities, so `get_estimate` — whose `_get_average` helper
evaluates `estimates[0][0]` — raises the `pint` `TypeError` for scalar
indexing instead of returning 9. -/
theorem get_estimate_raises_typeerror :
    (AbsoluteBindingProtocolResult.get_individual_estimates
        exBindingData).map (fun ie => ie.standard_state)
      = .ok [.scalar ⟨9/10, 1⟩, .scalar ⟨11/10, 1⟩] ∧
    AbsoluteBindingProtocolResult.get_estimate exBindingData
      = .error (.typeError "quantity magnitude does not support indexing") :=
  ⟨rfl, rfl⟩

/-! ### C9: forward/reverse analysis with `None` gaps -/

/-- The per-leg list built by `get_forward_and_reverse_energy_analysis`:
each repeat contributes `pus[0].outputs['forward_and_reverse_energies']`
in dict order (the `[]` branch is unreachable for nonempty repeats). -/
def legFR (groups : List (Nat × List ProtocolUnitResult)) :
    List (Option FRData) :=
  groups.map (fun p => match p.2 with
    | [] => none
    | pu :: _ => pu.outputs.forward_and_reverse_energies)

lemma mapM_pyHead_fr (groups : List (Nat × List ProtocolUnitResult))
    (h : ∀ p ∈ groups, p.2 ≠ []) :
    (groups.mapM (fun p => do
      let pu ← pyHead p.2
      pure pu.outputs.forward_and_reverse_energies)
        : Except PyErr (List (Option FRData)))
      = .ok (legFR groups) := by
  induction groups with
  | nil => rfl
  | cons p rest ih =>
    rw [List.mapM_cons, ih (fun q hq => h q (List.mem_cons_of_mem _ hq))]
    obtain ⟨k, l⟩ := p
    cases l with
    | nil => exact absurd rfl (h (k, []) (List.mem_cons_self _ _))
    | cons pu t => rfl

/-- C9: for every binding data set in which each repeat has at least one
generation, `get_forward_and_reverse_energy_analysis` returns, for each of
the `'solvent'` and `'complex'` legs, the full per-repeat list with every
`None` entry preserved in its position, and emits exactly one warning per
leg whose list contains a `None` entry and none for the others. -/
theorem get_forward_and_reverse_spec (g : GatherOutput)
    (hs : ∀ p ∈ g.solvent, p.2 ≠ []) (hc : ∀ p ∈ g.complex, p.2 ≠ []) :
    AbsoluteBindingProtocolResult.get_forward_and_reverse_energy_analysis g
      = .ok ⟨legFR g.solvent, legFR g.complex,
          (if none ∈ legFR g.solvent then ["solvent"] else [])
            ++ (if none ∈ legFR g.complex then ["complex"] else [])⟩ ∧
    ((if none ∈ legFR g.solvent then ["solvent"] else [])
        ++ (if none ∈ legFR g.complex then ["complex"] else [])).count "solvent"
      = (if none ∈ legFR g.solvent then 1 else 0) ∧
    ((if none ∈ legFR g.solvent then ["solvent"] else [])
        ++ (if none ∈ legFR g.complex then ["complex"] else [])).count "complex"
      = (if none ∈ legFR g.complex then 1 else 0) := by
  refine ⟨?_, ?_, ?_⟩
  · unfold AbsoluteBindingProtocolResult.get_forward_and_reverse_energy_analysis
    rw [mapM_pyHead_fr g.solvent hs, mapM_pyHead_fr g.complex hc]
    rfl
  · by_cases h1 : none ∈ legFR g.solvent <;>
      by_cases h2 : none ∈ legFR g.complex <;>
      simp [h1, h2]
  · by_cases h1 : none ∈ legFR g.solvent <;>
      by_cases h2 : none ∈ legFR g.complex <;>
      simp [h1, h2]

/-- A solvent-leg unit result whose forward/reverse analysis is `None`. -/
def puNoneFR : ProtocolUnitResult :=
  { ok := true,
    outputs :=
      { simtype := "solvent", repeat_id := 0, generation := 0,
        unit_estimate := ⟨-2, 1⟩, unit_estimate_error := ⟨1, 1⟩,
        standard_state_correction := ⟨1, 1⟩,
        forward_and_reverse_energies := none,
        nc := "n.nc", last_checkpoint := "n_chk.nc" } }

/-- A binding data set whose solvent leg has one `None` diagnostic entry. -/
def exFRData : GatherOutput :=
  ⟨[(0, [puNoneFR]), (1, [puSolvA])], [(2, [puVacA])]⟩

/-- Concrete instantiation of `get_forward_and_reverse_spec`: one `None`
gap in the solvent leg is preserved in place and draws exactly one
solvent warning and no complex warning. -/
theorem get_forward_and_reverse_spec_witness :
    AbsoluteBindingProtocolResult.get_forward_and_reverse_energy_analysis
        exFRData
      = .ok ⟨[none, some ⟨0⟩], [some ⟨0⟩], ["solvent"]⟩ ∧
    (["solvent"] : List String).count "solvent" = 1 ∧
    (["solvent"] : List String).count "complex" = 0 := by
  have h := get_forward_and_reverse_spec exFRData
    (by decide) (by decide)
  exact ⟨h.1, h.2.1, h.2.2⟩

/-! ## End-state and alchemical-component validation -/

/-- `gufe` components, distinguished by kind and an identity tag. -/
inductive Component where
  | protein (id : Nat)
  | solvent (id : Nat)
  | smallMolecule (id : Nat)
  | other (id : Nat)
  deriving DecidableEq, Repr

def Component.isProtein : Component → Bool
  | .protein _ => true
  | _ => false

def Component.isSolvent : Component → Bool
  | .solvent _ => true
  | _ => false

def Component.isSmallMolecule : Component → Bool
  | .smallMolecule _ => true
  | _ => false

/-- A `ChemicalSystem` as seen through `state.values()`. -/
abbrev ChemicalSystem := List Component

/-- Modelled from the spec: `gufe`'s `stateA.component_diff(stateB)` (the
gufe library is outside the excerpted sources).  Spec §3: the set-difference
between stateA and stateB identifies exactly the alchemical species, in each
direction. -/
def component_diff (a b : ChemicalSystem) : List Component × List Component :=
  (a.filter (fun c => !(b.contains c)), b.filter (fun c => !(a.contains c)))

/-- `AbsoluteBindingProtocol._validate_endstates`.  The checks run in source
order; `diff[0][0]` is evaluated before the stateB-uniques check, so a
stateA with no unique component reaches an `IndexError`. -/
def validate_endstates (stateA stateB : ChemicalSystem) : Except PyErr Unit :=
  if stateA.any Component.isProtein = false then
    .error (.valueError "No ProteinComponent found")
  else if stateA.any Component.isSolvent = false then
    .error (.valueError "No SolventComponent found")
  else
    let diff := component_diff stateA stateB
    if diff.1.length > 1 then
      .error (.valueError "More than unique components found in stateA")
    else
      match diff.1 with
      | [] => .error .indexError
      | c :: _ =>
        if c.isSmallMolecule = false then
          .error (.valueError "Only dissapearing small molecule components are supported")
        else if diff.2.length > 0 then
          .error (.valueError "Unique components are found in stateB")
        else
          .ok ()

/-- C4 (code evaluated at the failing input): when stateB introduces a
unique component while stateA has none, `_validate_endstates` evaluates
`diff[0][0]` on an empty list and raises `IndexError`, not the documented
`ValueError`; the no-protein and normal cases behave as documented. -/
theorem validate_endstates_indexerror :
    validate_endstates
        [Component.protein 0, Component.solvent 0]
        [Component.protein 0, Component.solvent 0, Component.smallMolecule 1]
      = .error .indexError ∧
    validate_endstates
        [Component.solvent 0, Component.smallMolecule 1]
        [Component.solvent 0]
      = .error (.valueError "No ProteinComponent found") ∧
    validate_endstates
        [Component.protein 0, Component.solvent 0, Component.smallMolecule 1]
        [Component.protein 0, Component.solvent 0]
      = .ok () :=
  ⟨rfl, rfl, rfl⟩

/-- The `alchemical_components` dict of
`system_validation.get_alchemical_components`. -/
structure AlchemicalComponents where
  stateA : List Component
  stateB : List Component
  deriving DecidableEq, Repr

/-- `AbsoluteSolvationProtocol._validate_alchemical_components`.  The
source's `len(alchemical_components['stateA']) > 1` branch only assigns
`errmsg` — its `raise` statement is missing — so no error is produced for
multiple alchemical components; only the stateB check and the
non-small-molecule scan can raise. -/
def validate_alchemical_components (ac : AlchemicalComponents) :
    Except PyErr Unit :=
  if ac.stateB.length > 0 then
    .error (.valueError "Components appearing in state B are not currently supported")
  else
    match ac.stateA.find? (fun c => c.isSmallMolecule = false) with
    | some _ =>
        .error (.valueError "Non SmallMoleculeComponent alchemical species are not currently supported")
    | none => .ok ()

/-- C7 (code evaluated at the failing input): two small-molecule alchemical
components in stateA pass `_validate_alchemical_components` without any
error — the multi-species branch builds its message but never raises —
while the stateB and non-small-molecule checks do raise. -/
theorem validate_alchemical_components_missing_raise :
    (AlchemicalComponents.mk
      [Component.smallMolecule 0, Component.smallMolecule 1] []).stateA.length > 1 ∧
    validate_alchemical_components
        ⟨[Component.smallMolecule 0, Component.smallMolecule 1], []⟩
      = .ok () ∧
    validate_alchemical_components ⟨[Component.smallMolecule 0],
        [Component.smallMolecule 1]⟩
      = .error (.valueError "Components appearing in state B are not currently supported") ∧
    validate_alchemical_components ⟨[Component.protein 0], []⟩
      = .error (.valueError "Non SmallMoleculeComponent alchemical species are not currently supported") :=
  ⟨by decide, rfl, rfl, rfl⟩

/-! ## `BaseAbsoluteTransformUnit.run` / `_run_simulation` (dry-run path) -/

/-- Observable execution state of one unit: files on disk, sampler method
calls performed, and cache-release flags. -/
structure SimState where
  files : List String
  minimizeCalls : Nat
  equilibrateCalls : Nat
  extendCalls : Nat
  energyCacheCleared : Bool
  samplerCacheCleared : Bool
  globalCacheCleared : Bool
  deriving DecidableEq, Repr

/-- The settings fields read on the `run`/`_run_simulation` path (times in
picoseconds). -/
structure RunSettings where
  output_filename : String
  checkpoint_storage : String
  equilibration_length : ℚ
  production_length : ℚ
  timestep : ℚ
  n_steps : Nat
  minimization_steps : Nat
  lambda_elec_windows : Nat
  lambda_vdw_windows : Nat
  n_replicas : Nat
  deriving DecidableEq, Repr

/-- What `run` would hand back: the dry-run `{'debug': {'sampler': ...}}`
dict or the production `{'nc': ..., 'last_checkpoint': ...}` dict. -/
inductive RunOutput where
  | debug
  | normal (nc chk : String)
  deriving DecidableEq, Repr

/-- Number of required parameters of
`_prepare(self, verbose, scratch_basepath, shared_basepath)` besides
`self`. -/
def prepareParamCount : Nat := 3

/-- `run` calls `self._prepare(verbose, basepath)` — two arguments. -/
def runPrepareArgCount : Nat := 2

/-- The Python call protocol for `_prepare`: a missing required positional
argument raises `TypeError`. -/
def callPrepare (argCount : Nat) : Except PyErr Unit :=
  if argCount = prepareParamCount then .ok ()
  else .error (.typeError "prepare missing 1 required positional argument")

/-- Python tuple unpacking `a₁, …, a_dst = f(...)` where `f` returns a
`src`-tuple: a length mismatch raises `ValueError`. -/
def pyUnpack (src dst : Nat) : Except PyErr Unit :=
  if src = dst then .ok ()
  else .error (.valueError "too many values to unpack")

/-- The key set of the settings dict contracted by `_handle_settings`
(docstring of `BaseAbsoluteTransformUnit._handle_settings`). -/
def settingsKeys : List String :=
  ["forcefield_settings", "thermo_settings", "system_settings",
   "solvation_settings", "alchemical_settings", "sampler_settings",
   "engine_settings", "integrator_settings", "simulation_settings"]

/-- String-keyed access to the settings dict: missing key raises
`KeyError`. -/
def settingsLookup (k : String) : Except PyErr Unit :=
  if settingsKeys.contains k then .ok () else .error (.keyError k)

/-- Truncated conversion of a physical-time length into a step count,
`len / ts` on positive rationals, written on numerators/denominators so
that it evaluates by integer arithmetic. -/
def timeToSteps (len ts : ℚ) : Nat :=
  ((len.num * (ts.den : Int)) / (ts.num * (len.den : Int))).toNat

/-- Modelled from the spec: `settings_validation.get_simsteps`
(`openmm_utils.settings_validation` is outside the excerpted sources).
Spec §4.4: equilibration/production physical-time lengths are converted
into integer integrator-step counts, which must be exact multiples of the
per-MCMC-move step count; a remainder triggers a configuration error. -/
def get_simsteps (equilLen prodLen timestep : ℚ) (mcSteps : Nat) :
    Except PyErr (Nat × Nat) :=
  let equilSteps := timeToSteps equilLen timestep
  let prodSteps := timeToSteps prodLen timestep
  if equilSteps % mcSteps ≠ 0 ∨ prodSteps % mcSteps ≠ 0 then
    .error (.valueError "steps do not divide into the number of mc steps")
  else
    .ok (equilSteps, prodSteps)

namespace BaseAbsoluteTransformUnit

/-- `BaseAbsoluteTransformUnit._run_simulation`.  The non-dry branch reads
`settings['sim_settings']` (the dict key is `'simulation_settings'`, so this
raises `KeyError`) before it could minimize/equilibrate/extend; the dry
branch closes the reporter, removes the trajectory storage and checkpoint
files and returns `{'debug': {'sampler': sampler}}`. -/
def run_simulation (cfg : RunSettings) (dry : Bool) (st : SimState) :
    Except PyErr (SimState × Option RunOutput) := do
  let _ ← get_simsteps cfg.equilibration_length cfg.production_length
    cfg.timestep cfg.n_steps
  if dry = false then do
    let _ ← settingsLookup "sim_settings"
    let st1 := { st with minimizeCalls := st.minimizeCalls + 1 }
    let st2 := { st1 with equilibrateCalls := st1.equilibrateCalls + 1 }
    let st3 := { st2 with extendCalls := st2.extendCalls + 1 }
    .ok (st3, some (.normal cfg.output_filename cfg.checkpoint_storage))
  else
    .ok ({ st with files :=
        (st.files.erase cfg.output_filename).erase cfg.checkpoint_storage },
      some .debug)

/-- `BaseAbsoluteTransformUnit.run`.  Steps in source order: the
`self._prepare(verbose, basepath)` call at step 0 passes two arguments to a
method requiring three, raising `TypeError` before anything else happens;
steps 5/9/10 unpack helper tuples (step 9 unpacks the 3-tuple of
`_get_alchemical_system` into two names), step 11 subscripts the settings
dict with the misspelt key `'simulation_setttings'`, and the function body
ends without a return statement, so a completed call would return `None`
after the `finally` block cleared the context caches and discarded
`_run_simulation`'s result. -/
def run (dry : Bool) (cfg : RunSettings) (st : SimState) :
    Except PyErr (SimState × Option RunOutput) := do
  let _ ← callPrepare runPrepareArgCount
  let _ ← pyUnpack 4 4
  let _ ← pyUnpack 2 2
  let _ ← pyUnpack 3 3
  let _ ← get_lambda_schedule
    ⟨cfg.lambda_elec_windows, cfg.lambda_vdw_windows⟩ ⟨cfg.n_replicas⟩
  let _ ← pyUnpack 3 2
  let _ ← pyUnpack 2 2
  let _ ← settingsLookup "simulation_setttings"
  match run_simulation cfg dry st with
  | .ok (st1, _discarded) =>
      .ok ({ st1 with
        energyCacheCleared := true
        samplerCacheCleared := true
        globalCacheCleared := true }, none)
  | .error e => .error e

end BaseAbsoluteTransformUnit

/-- C8 (code evaluated at the failing input): `run(dry=True)` raises
`TypeError` on its very first step for every unit and settings bundle, so
the dry run neither cleans up nor returns the debug dict; the dry branch of
`_run_simulation` itself (unreachable through `run`) does remove the
trajectory and checkpoint files, performs no minimize/equilibrate/extend
call, and returns the debug dict, which `run` would anyway discard. -/
theorem run_dry_raises_typeerror :
    (∀ (cfg : RunSettings) (st : SimState),
      BaseAbsoluteTransformUnit.run true cfg st
        = .error (.typeError "prepare missing 1 required positional argument")) ∧
    (∀ (cfg : RunSettings) (st : SimState) (eq pr : Nat),
      get_simsteps cfg.equilibration_length cfg.production_length
          cfg.timestep cfg.n_steps = .ok (eq, pr) →
      BaseAbsoluteTransformUnit.run_simulation cfg true st
        = .ok ({ st with files :=
            (st.files.erase cfg.output_filename).erase cfg.checkpoint_storage },
          some .debug)) := by
  constructor
  · intro cfg st
    rfl
  · intro cfg st eq pr hok
    unfold BaseAbsoluteTransformUnit.run_simulation
    rw [hok]
    rfl

/-- Concrete instantiation of `run_dry_raises_typeerror`: a well-formed
settings bundle whose step counts divide evenly still crashes in `run`,
while the inner dry branch deletes exactly the two reporter files. -/
theorem run_dry_raises_typeerror_witness :
    (get_simsteps (10 : ℚ) (20 : ℚ) (1 : ℚ) 5 = .ok (10, 20)) ∧
    BaseAbsoluteTransformUnit.run true
        ⟨"out.nc", "chk.nc", 10, 20, 1, 5, 100, 2, 3, 5⟩
        ⟨["out.nc", "chk.nc"], 0, 0, 0, false, false, false⟩
      = .error (.typeError "prepare missing 1 required positional argument") ∧
    BaseAbsoluteTransformUnit.run_simulation
        ⟨"out.nc", "chk.nc", 10, 20, 1, 5, 100, 2, 3, 5⟩ true
        ⟨["out.nc", "chk.nc"], 0, 0, 0, false, false, false⟩
      = .ok (⟨[], 0, 0, 0, false, false, false⟩, some .debug) := by
  refine ⟨by rfl, ?_, ?_⟩
  · exact run_dry_raises_typeerror.1
      ⟨"out.nc", "chk.nc", 10, 20, 1, 5, 100, 2, 3, 5⟩
      ⟨["out.nc", "chk.nc"], 0, 0, 0, false, false, false⟩
  · exact run_dry_raises_typeerror.2
      ⟨"out.nc", "chk.nc", 10, 20, 1, 5, 100, 2, 3, 5⟩
      ⟨["out.nc", "chk.nc"], 0, 0, 0, false, false, false⟩ 10 20 (by rfl)

end OpenFE
